import Mathlib

/-!
Verification development for the interaction core of a node-graph editor
(`ax::Editor::Detail`, header `Editor.h` plus the public API `EditorApi.h`).

Embedding conventions:
- C++ pointers (`Node*`, `Pin*`, `Link*`, `Object*`) are modelled as ids
  (`Option Int`), with explicit stores (`List`) where dereferencing is needed.
- `float` coordinates are modelled as exact rationals (`ℚ`); `ImU32` colors as `Nat`.
- The repository ships only header declarations for the action/canvas
  implementations; where an implementation body is absent, the corresponding
  Lean definition is modelled from the specification and marked
  `Modelled from the spec:` in its doc comment.  Inline bodies present in the
  header (`Object`/`Pin`/`Node`/`Link` constructors, the capability accessors,
  and the `Control` constructor) are translated directly from the source.
-/

namespace AxEditor

/-- Two-dimensional vector, standing in for `ImVec2` / `pointf` with exact
rational coordinates. -/
@[ext]
structure Vec2 where
  x : ℚ
  y : ℚ
deriving DecidableEq, Repr

/-- Axis-aligned rectangle, standing in for `ax::rect`: a location (top-left
corner) plus a size. -/
structure Rect2 where
  location : Vec2
  w : ℚ
  h : ℚ
deriving DecidableEq, Repr

/-- Zero vector, the default value of `pointf`/`point`/`ImVec2`. -/
def Vec2.zero : Vec2 := ⟨0, 0⟩

/-- Default-constructed rectangle `rect(point(0, 0), size())`. -/
def Rect2.zero : Rect2 := ⟨Vec2.zero, 0, 0⟩

/-- Pin kind tag (`enum class PinKind`), driven by `BeginInput`/`BeginOutput`. -/
inductive PinKind
  | Input
  | Output
deriving DecidableEq, Repr

/-- Data of `struct Pin final : Object` (header lines 60-74).  The base-class
fields `ID` and `IsLive` are inlined; the `Node*` back-reference and the
`Pin* PreviousPin` chain pointer are node/pin ids. -/
structure Pin where
  ID : Int
  IsLive : Bool
  Kind : PinKind
  Node : Option Int
  Bounds : Rect2
  DragPoint : Vec2
  PreviousPin : Option Int
deriving DecidableEq, Repr

/-- Data of `struct Node final : Object` (header lines 76-93). -/
structure Node where
  ID : Int
  IsLive : Bool
  Bounds : Rect2
  Channel : Int
  LastPin : Option Int
  DragStart : Vec2
deriving DecidableEq, Repr

/-- Data of `struct Link final : Object` (header lines 95-108). -/
structure Link where
  ID : Int
  IsLive : Bool
  StartPin : Option Int
  EndPin : Option Int
  Color : Nat
  Thickness : ℚ
deriving DecidableEq, Repr

/-- Constructor `Pin(int id, PinKind kind)`: `Object(id)` sets `IsLive = true`;
`Node`, `Bounds` and `PreviousPin` are zero/null initialized, `DragPoint` is
default constructed. -/
def Pin.create (id : Int) (kind : PinKind) : Pin :=
  { ID := id, IsLive := true, Kind := kind, Node := none,
    Bounds := Rect2.zero, DragPoint := Vec2.zero, PreviousPin := none }

/-- Constructor `Node(int id)`: `Object(id)` sets `IsLive = true`; bounds start
at `rect(point(0, 0), size())`, channel 0, no last pin, zero drag start. -/
def Node.create (id : Int) : Node :=
  { ID := id, IsLive := true, Bounds := Rect2.zero, Channel := 0,
    LastPin := none, DragStart := Vec2.zero }

/-- Value of the `IM_COL32_WHITE` constant (`0xFFFFFFFF`). -/
def IM_COL32_WHITE : Nat := 4294967295

/-- Constructor `Link(int id)`: `Object(id)` sets `IsLive = true`; both pin
pointers null, color `IM_COL32_WHITE`, thickness `1.0f`. -/
def Link.create (id : Int) : Link :=
  { ID := id, IsLive := true, StartPin := none, EndPin := none,
    Color := IM_COL32_WHITE, Thickness := 1 }

/-- A concrete `Object` is exactly one of the three final subclasses
(`Node`, `Pin`, `Link`), each carrying its data. -/
inductive Object
  | node (n : Node)
  | pin (p : Pin)
  | link (l : Link)
deriving DecidableEq, Repr

/-- Identifier of the underlying object (base-class field `Object::ID`). -/
def Object.objId : Object → Int
  | .node n => n.ID
  | .pin p => p.ID
  | .link l => l.ID

/-- Capability accessor `Object::AsNode` with the `Node` override returning
`this` (modelled as the object's id) and the base returning `nullptr`. -/
def Object.AsNode : Object → Option Int
  | .node n => some n.ID
  | _ => none

/-- Capability accessor `Object::AsPin` with the `Pin` override returning
`this` and the base returning `nullptr`. -/
def Object.AsPin : Object → Option Int
  | .pin p => some p.ID
  | _ => none

/-- Capability accessor `Object::AsLink` with the `Link` override returning
`this` and the base returning `nullptr`. -/
def Object.AsLink : Object → Option Int
  | .link l => some l.ID
  | _ => none

/-- Payload view of `Object::AsPin`: the pin data when the object is a `Pin`.
In C++ the returned `Pin*` aliases the object itself, so the pointer carries
the full pin data; this helper makes the dereference `HotPin->Node` explicit. -/
def Object.asPinData : Object → Option Pin
  | .pin p => some p
  | _ => none

/-- Frame-level control state `struct Control` (header lines 130-147): the raw
hot/active/clicked objects, their derived `Node`/`Pin`/`Link` specializations
(as ids), and the three background flags. -/
structure Control where
  HotObject : Option Object
  ActiveObject : Option Object
  ClickedObject : Option Object
  HotNode : Option Int
  ActiveNode : Option Int
  ClickedNode : Option Int
  HotPin : Option Int
  ActivePin : Option Int
  ClickedPin : Option Int
  HotLink : Option Int
  ActiveLink : Option Int
  ClickedLink : Option Int
  BackgroundHot : Bool
  BackgroundActive : Bool
  BackgroundClicked : Bool
deriving DecidableEq, Repr

/-- Constructor `Control::Control` (header lines 148-189): every derived field
starts null; if `hotObject` is non-null its `AsNode`/`AsPin`/`AsLink`
specializations are taken, and when `HotPin` is non-null, `HotNode` is
overwritten with `HotPin->Node`; `activeObject` and `clickedObject` get the
plain `AsNode`/`AsPin`/`AsLink` derivations. -/
def Control.create (hot active clicked : Option Object)
    (backgroundHot backgroundActive backgroundClicked : Bool) : Control :=
  let hotPinData := hot.bind Object.asPinData
  { HotObject := hot
    ActiveObject := active
    ClickedObject := clicked
    HotNode :=
      match hotPinData with
      | some p => p.Node
      | none => hot.bind Object.AsNode
    HotPin := hot.bind Object.AsPin
    HotLink := hot.bind Object.AsLink
    ActiveNode := active.bind Object.AsNode
    ActivePin := active.bind Object.AsPin
    ActiveLink := active.bind Object.AsLink
    ClickedNode := clicked.bind Object.AsNode
    ClickedPin := clicked.bind Object.AsPin
    ClickedLink := clicked.bind Object.AsLink
    BackgroundHot := backgroundHot
    BackgroundActive := backgroundActive
    BackgroundClicked := backgroundClicked }

/-- C9: for every `Object`, the capability queries `AsNode`, `AsPin`, `AsLink`
are mutually exclusive — exactly one returns a non-null pointer, the one
matching the concrete kind — and that accessor returns the object itself
(its own id, under the pointer-as-id embedding). -/
theorem object_capability_queries_exclusive (o : Object) :
    ((o.AsNode).isSome.toNat + (o.AsPin).isSome.toNat + (o.AsLink).isSome.toNat = 1)
    ∧ (∀ i : Int, o.AsNode = some i → i = o.objId)
    ∧ (∀ i : Int, o.AsPin = some i → i = o.objId)
    ∧ (∀ i : Int, o.AsLink = some i → i = o.objId) := by
  cases o <;>
    exact ⟨rfl,
      fun i h => by
        simp only [Object.AsNode, Option.some.injEq, reduceCtorEq] at h <;>
          simp [Object.objId, h],
      fun i h => by
        simp only [Object.AsPin, Option.some.injEq, reduceCtorEq] at h <;>
          simp [Object.objId, h],
      fun i h => by
        simp only [Object.AsLink, Option.some.injEq, reduceCtorEq] at h <;>
          simp [Object.objId, h]⟩

/-- Concrete instantiation of `object_capability_queries_exclusive` on a node
object with id 3. -/
theorem object_capability_queries_exclusive_witness :
    (Object.node (Node.create 3)).AsNode = some 3
    ∧ (3 : Int) = (Object.node (Node.create 3)).objId :=
  ⟨rfl, (object_capability_queries_exclusive (Object.node (Node.create 3))).2.1 3 rfl⟩

/-- C10: every object is constructed with `IsLive = true`, and a `Link` is
additionally constructed with both endpoint pins null, color white and
thickness 1. -/
theorem object_constructed_live_link_defaults :
    (∀ (id : Int) (kind : PinKind), (Pin.create id kind).IsLive = true)
    ∧ (∀ id : Int, (Node.create id).IsLive = true)
    ∧ (∀ id : Int, (Link.create id).IsLive = true
        ∧ (Link.create id).StartPin = none
        ∧ (Link.create id).EndPin = none
        ∧ (Link.create id).Color = IM_COL32_WHITE
        ∧ (Link.create id).Thickness = 1) :=
  ⟨fun _ _ => rfl, fun _ => rfl, fun _ => ⟨rfl, rfl, rfl, rfl, rfl⟩⟩

/-- C8: a `Control` built with a hot object that is a `Pin` sets the derived
hot-node field to that pin's owning node (so it is non-null whenever the pin
has an owner, and differs from the pin's own `AsNode` result, which is null);
the active and clicked objects get the plain `AsNode`/`AsPin`/`AsLink`
derivations. -/
theorem control_hot_pin_derives_owner_node
    (p : Pin) (active clicked : Option Object) (bh ba bc : Bool)
    (nid : Int) (howner : p.Node = some nid) :
    (Control.create (some (Object.pin p)) active clicked bh ba bc).HotNode = some nid
    ∧ (Control.create (some (Object.pin p)) active clicked bh ba bc).HotNode ≠ none
    ∧ (Object.pin p).AsNode = none
    ∧ (Control.create (some (Object.pin p)) active clicked bh ba bc).HotPin = some p.ID
    ∧ (Control.create (some (Object.pin p)) active clicked bh ba bc).ActiveNode
        = active.bind Object.AsNode
    ∧ (Control.create (some (Object.pin p)) active clicked bh ba bc).ActivePin
        = active.bind Object.AsPin
    ∧ (Control.create (some (Object.pin p)) active clicked bh ba bc).ActiveLink
        = active.bind Object.AsLink
    ∧ (Control.create (some (Object.pin p)) active clicked bh ba bc).ClickedNode
        = clicked.bind Object.AsNode
    ∧ (Control.create (some (Object.pin p)) active clicked bh ba bc).ClickedPin
        = clicked.bind Object.AsPin
    ∧ (Control.create (some (Object.pin p)) active clicked bh ba bc).ClickedLink
        = clicked.bind Object.AsLink := by
  refine ⟨?_, ?_, rfl, rfl, rfl, rfl, rfl, rfl, rfl, rfl⟩ <;>
    · simp [Control.create, Object.asPinData, howner]

/-- Concrete instantiation of `control_hot_pin_derives_owner_node`: a pin with
id 7 owned by node 3 makes node 3 the hot node. -/
theorem control_hot_pin_derives_owner_node_witness :
    ({ Pin.create 7 PinKind.Input with Node := some 3 } : Pin).Node = some 3
    ∧ (Control.create (some (Object.pin { Pin.create 7 PinKind.Input with Node := some 3 }))
        none none false false false).HotNode = some 3 :=
  ⟨rfl,
    (control_hot_pin_derives_owner_node { Pin.create 7 PinKind.Input with Node := some 3 }
      none none false false false 3 rfl).1⟩

/-- State of `struct Canvas` (header lines 196-212): window origin/size in
screen space, content origin/size in client space, and the 2D zoom factor with
its precomputed reciprocal `InvZoom`. -/
structure Canvas where
  WindowScreenPos : Vec2
  WindowScreenSize : Vec2
  ClientOrigin : Vec2
  ClientSize : Vec2
  Zoom : Vec2
  InvZoom : Vec2
deriving DecidableEq, Repr

/-- Modelled from the spec: `Canvas::ToClient` (body not under `src/`), the
affine map from canvas space to client space, `clientOrigin + p * zoom`
componentwise. -/
def Canvas.ToClient (c : Canvas) (p : Vec2) : Vec2 :=
  ⟨c.ClientOrigin.x + p.x * c.Zoom.x, c.ClientOrigin.y + p.y * c.Zoom.y⟩

/-- Modelled from the spec: `Canvas::FromClient` (body not under `src/`), the
inverse affine map computed with the precomputed reciprocal zoom to avoid
repeated division. -/
def Canvas.FromClient (c : Canvas) (p : Vec2) : Vec2 :=
  ⟨(p.x - c.ClientOrigin.x) * c.InvZoom.x, (p.y - c.ClientOrigin.y) * c.InvZoom.y⟩

/-- Modelled from the spec: `Canvas::ToScreen` (body not under `src/`),
`toScreen(p) = windowScreenPos + clientOrigin + p * zoom` componentwise. -/
def Canvas.ToScreen (c : Canvas) (p : Vec2) : Vec2 :=
  ⟨c.WindowScreenPos.x + (c.ToClient p).x, c.WindowScreenPos.y + (c.ToClient p).y⟩

/-- Modelled from the spec: `Canvas::FromScreen` (body not under `src/`), the
inverse of `ToScreen` using the precomputed reciprocal zoom. -/
def Canvas.FromScreen (c : Canvas) (p : Vec2) : Vec2 :=
  c.FromClient ⟨p.x - c.WindowScreenPos.x, p.y - c.WindowScreenPos.y⟩

/-- C2: for every point `p` and every non-zero zoom factor with its reciprocal
precomputed (covering every positive zoom, in particular the levels 0.1, 1.0
and 2.5), `ToScreen (FromScreen p)` equals `p` exactly in the rational-number
model, hence in particular within an epsilon of `1e-4` in each component. -/
theorem canvas_roundtrip_toScreen_fromScreen
    (c : Canvas) (p : Vec2)
    (hzx : c.Zoom.x ≠ 0) (hzy : c.Zoom.y ≠ 0)
    (hix : c.InvZoom.x = 1 / c.Zoom.x) (hiy : c.InvZoom.y = 1 / c.Zoom.y) :
    c.ToScreen (c.FromScreen p) = p
    ∧ |(c.ToScreen (c.FromScreen p)).x - p.x| ≤ 1 / 10000
    ∧ |(c.ToScreen (c.FromScreen p)).y - p.y| ≤ 1 / 10000 := by
  have hx : (c.ToScreen (c.FromScreen p)).x = p.x := by
    simp only [Canvas.ToScreen, Canvas.FromScreen, Canvas.ToClient, Canvas.FromClient,
      hix, hiy]
    field_simp
  have hy : (c.ToScreen (c.FromScreen p)).y = p.y := by
    simp only [Canvas.ToScreen, Canvas.FromScreen, Canvas.ToClient, Canvas.FromClient,
      hix, hiy]
    field_simp
  refine ⟨Vec2.ext hx hy, ?_, ?_⟩ <;> simp [hx, hy]

/-- Concrete instantiation of `canvas_roundtrip_toScreen_fromScreen` at zoom
`5/2` (the 2.5 zoom level) with a non-trivial window position, client origin
and point. -/
theorem canvas_roundtrip_toScreen_fromScreen_witness :
    ((5 : ℚ) / 2 ≠ 0 ∧ (2 : ℚ) / 5 = 1 / (5 / 2))
    ∧ (Canvas.mk ⟨100, 50⟩ ⟨640, 480⟩ ⟨7, -3⟩ ⟨640, 480⟩ ⟨5 / 2, 5 / 2⟩
        ⟨2 / 5, 2 / 5⟩).ToScreen
        ((Canvas.mk ⟨100, 50⟩ ⟨640, 480⟩ ⟨7, -3⟩ ⟨640, 480⟩ ⟨5 / 2, 5 / 2⟩
          ⟨2 / 5, 2 / 5⟩).FromScreen ⟨13, -27⟩) = ⟨13, -27⟩ :=
  ⟨⟨by norm_num, by norm_num⟩,
    (canvas_roundtrip_toScreen_fromScreen
      (Canvas.mk ⟨100, 50⟩ ⟨640, 480⟩ ⟨7, -3⟩ ⟨640, 480⟩ ⟨5 / 2, 5 / 2⟩ ⟨2 / 5, 2 / 5⟩)
      ⟨13, -27⟩ (by norm_num) (by norm_num) (by norm_num) (by norm_num)).1⟩

/-- The five interaction actions held by `Context` (header lines 584-588), in
the Scheduler's fixed priority order. -/
inductive ActionKind
  | Scroll
  | Drag
  | Select
  | CreateItem
  | DeleteItems
deriving DecidableEq, Repr, Fintype

/-- Per-action `IsActive` flags of the five `EditorAction` instances owned by
the `Context` (fields `ScrollAction.IsActive`, `DragAction.IsActive`,
`SelectAction.IsActive`, `CreateItemAction.IsActive`,
`DeleteItemsAction.IsActive`). -/
structure ActionRoster where
  scrollIsActive : Bool
  dragIsActive : Bool
  selectIsActive : Bool
  createItemIsActive : Bool
  deleteItemsIsActive : Bool
deriving DecidableEq, Repr, Fintype

/-- Whether the given action currently reports `IsActive`. -/
def ActionRoster.isActive (s : ActionRoster) : ActionKind → Bool
  | .Scroll => s.scrollIsActive
  | .Drag => s.dragIsActive
  | .Select => s.selectIsActive
  | .CreateItem => s.createItemIsActive
  | .DeleteItems => s.deleteItemsIsActive

/-- Number of actions reporting `IsActive`. -/
def ActionRoster.activeCount (s : ActionRoster) : Nat :=
  s.scrollIsActive.toNat + s.dragIsActive.toNat + s.selectIsActive.toNat
    + s.createItemIsActive.toNat + s.deleteItemsIsActive.toNat

/-- Initial roster: every action starts inactive. -/
def ActionRoster.initial : ActionRoster :=
  ⟨false, false, false, false, false⟩

/-- Roster with every action inactive (control reverted to "none"). -/
def ActionRoster.clearAll : ActionRoster :=
  ⟨false, false, false, false, false⟩

/-- Roster after the given action takes ownership of the frame, all others
inactive. -/
def ActionRoster.solo : ActionKind → ActionRoster
  | .Scroll => ⟨true, false, false, false, false⟩
  | .Drag => ⟨false, true, false, false, false⟩
  | .Select => ⟨false, false, true, false, false⟩
  | .CreateItem => ⟨false, false, false, true, false⟩
  | .DeleteItems => ⟨false, false, false, false, true⟩

/-- The Scheduler's fixed priority order: Scroll, Drag, Select, CreateItem,
DeleteItems. -/
def priorityOrder : List ActionKind :=
  [ActionKind.Scroll, ActionKind.Drag, ActionKind.Select,
   ActionKind.CreateItem, ActionKind.DeleteItems]

/-- Pointer `Context::CurrentAction` (header line 583), recovered from the
per-action flags: the first action in priority order reporting `IsActive`. -/
def ActionRoster.currentAction (s : ActionRoster) : Option ActionKind :=
  priorityOrder.find? s.isActive

/-- Modelled from the spec: the per-frame Action Scheduler (its loop in
`Context::End` is not under `src/`).  If an action is already active, its
`Process` decides whether it continues (the environment input `cont`); when
`Process` returns false, control reverts to "none".  Otherwise the Scheduler
offers the `Control` to the five actions in the fixed priority order and the
first whose `Accept` returns true (the environment input `accept`) owns the
frame exclusively. -/
def frameStep (accept cont : ActionKind → Bool) (s : ActionRoster) : ActionRoster :=
  match s.currentAction with
  | some k => if cont k then s else ActionRoster.clearAll
  | none =>
      match priorityOrder.find? accept with
      | some k => ActionRoster.solo k
      | none => s

/-- Roster states reachable from the initial all-inactive state by any
sequence of frames, with arbitrary per-frame `Accept`/`Process` outcomes. -/
inductive ReachableRoster : ActionRoster → Prop
  | init : ReachableRoster ActionRoster.initial
  | step (accept cont : ActionKind → Bool) {s : ActionRoster} :
      ReachableRoster s → ReachableRoster (frameStep accept cont s)

/-- A roster whose `currentAction` is null has every action inactive. -/
theorem currentAction_none_all_inactive (s : ActionRoster)
    (h : s.currentAction = none) : s = ActionRoster.initial := by
  cases s with
  | mk a b c d e =>
      cases a <;> cases b <;> cases c <;> cases d <;> cases e <;>
        first
        | rfl
        | simp [ActionRoster.currentAction, priorityOrder, List.find?,
            ActionRoster.isActive] at h

/-- One frame step preserves the at-most-one-active invariant. -/
theorem frameStep_activeCount_le (accept cont : ActionKind → Bool)
    (s : ActionRoster) (h : s.activeCount ≤ 1) :
    (frameStep accept cont s).activeCount ≤ 1 := by
  unfold frameStep
  cases hc : s.currentAction with
  | some k =>
      by_cases hk : cont k = true
      · simpa [hk] using h
      · simp only [Bool.not_eq_true] at hk
        simp [hk, ActionRoster.clearAll, ActionRoster.activeCount]
  | none =>
      cases hf : priorityOrder.find? accept with
      | some k => cases k <;> simp [ActionRoster.solo, ActionRoster.activeCount]
      | none => exact h

/-- Every reachable roster has at most one action reporting `IsActive`. -/
theorem reachable_activeCount_le (s : ActionRoster) (hr : ReachableRoster s) :
    s.activeCount ≤ 1 := by
  induction hr with
  | init => decide
  | step accept cont hs ih => exact frameStep_activeCount_le accept cont _ ih

/-- C1: in every reachable state of the Scheduler, no two of the five actions
simultaneously report `IsActive` — the action that owns the frame owns it
exclusively. -/
theorem scheduler_single_active_action
    (s : ActionRoster) (hr : ReachableRoster s) (k₁ k₂ : ActionKind)
    (h₁ : s.isActive k₁ = true) (h₂ : s.isActive k₂ = true) : k₁ = k₂ := by
  have hcount : s.activeCount ≤ 1 := reachable_activeCount_le s hr
  revert h₁ h₂ hcount
  cases s with
  | mk a b c d e =>
      cases a <;> cases b <;> cases c <;> cases d <;> cases e <;>
        cases k₁ <;> cases k₂ <;> decide

/-- Environment in which every action's `Accept` claims the frame. -/
def acceptAll : ActionKind → Bool := fun _ => true

/-- Environment in which every action's `Process` keeps it active. -/
def contAll : ActionKind → Bool := fun _ => true

/-- Roster after one frame from the initial state under `acceptAll`: Scroll,
first in priority order, owns the frame. -/
def rosterAfterOne : ActionRoster := frameStep acceptAll contAll ActionRoster.initial

/-- Concrete instantiation of `scheduler_single_active_action` one frame after
start, where the Scroll action is the active one. -/
theorem scheduler_single_active_action_witness :
    ReachableRoster rosterAfterOne
    ∧ rosterAfterOne.isActive ActionKind.Scroll = true
    ∧ ActionKind.Scroll = ActionKind.Scroll :=
  ⟨ReachableRoster.step acceptAll contAll ReachableRoster.init,
    by decide,
    scheduler_single_active_action rosterAfterOne
      (ReachableRoster.step acceptAll contAll ReachableRoster.init)
      ActionKind.Scroll ActionKind.Scroll (by decide) (by decide)⟩

/-- Stage of the creation wizard (`enum CreateItemAction::Stage`, header
lines 316-321). -/
inductive CreateStage
  | None
  | Possible
  | Create
deriving DecidableEq, Repr

/-- Item type proposed by the creation wizard (`enum CreateItemAction::Type`,
header lines 330-335). -/
inductive CreateItemType
  | NoItem
  | Node
  | Link
deriving DecidableEq, Repr

/-- Consumer's pending answer (`enum CreateItemAction::Action`, header
lines 323-328). -/
inductive CreateUserAction
  | Unknown
  | UserReject
  | UserAccept
deriving DecidableEq, Repr

/-- Result of a creation query (`enum CreateItemAction::Result`, header
lines 337-342). -/
inductive CreateResult
  | True
  | False
  | Indeterminate
deriving DecidableEq, Repr

/-- State of `struct CreateItemAction` (header lines 314-389).  The `Pin*`
members keep the full pin data (the pointer aliases a live pin of the frame). -/
structure CreateItemAction where
  InActive : Bool
  NextStage : CreateStage
  CurrentStage : CreateStage
  ItemType : CreateItemType
  UserAction : CreateUserAction
  LinkColor : Nat
  LinkThickness : ℚ
  LinkStart : Option Pin
  LinkEnd : Option Pin
  IsActive : Bool
  DraggedPin : Option Pin
deriving DecidableEq, Repr

/-- Initial creation-wizard state: idle, no proposal, style defaults. -/
def CreateItemAction.initial : CreateItemAction :=
  { InActive := false, NextStage := CreateStage.None, CurrentStage := CreateStage.None,
    ItemType := CreateItemType.NoItem, UserAction := CreateUserAction.Unknown,
    LinkColor := IM_COL32_WHITE, LinkThickness := 1, LinkStart := none, LinkEnd := none,
    IsActive := false, DraggedPin := none }

/-- Whether some existing link already joins pins `a` and `b` identically
(spec: a drop target "already linked identically" is rejected). -/
def alreadyLinked (links : List Link) (a b : Pin) : Bool :=
  links.any (fun l => decide (l.StartPin = some a.ID ∧ l.EndPin = some b.ID))

/-- Modelled from the spec: `CreateItemAction::DragStart` (body not under
`src/`).  On drag start from a pin the stage becomes `Possible` with type
`Link`, the dragged pin is recorded as the link start, the pending user answer
is reset, and the action becomes active. -/
def CreateItemAction.DragStart (s : CreateItemAction) (startPin : Pin) :
    CreateItemAction :=
  { s with
    CurrentStage := CreateStage.Possible
    NextStage := CreateStage.Possible
    ItemType := CreateItemType.Link
    UserAction := CreateUserAction.Unknown
    DraggedPin := some startPin
    LinkStart := some startPin
    LinkEnd := none
    IsActive := true }

/-- Modelled from the spec: `CreateItemAction::DropPin` (body not under
`src/`).  Dropping over a compatible pin of a different node — not the same
pin, not a pin of the same node, not an opposite-kind mismatch, and not a pin
already linked identically — moves to stage `Create` with type `Link`;
dropping over the originating pin, a pin of the same node, or an incompatible
target reverts to `None`. -/
def CreateItemAction.DropPin (s : CreateItemAction) (links : List Link)
    (endPin : Pin) : CreateItemAction :=
  match s.DraggedPin with
  | none => s
  | some startPin =>
      if endPin.ID = startPin.ID ∨ endPin.Node = startPin.Node
          ∨ endPin.Kind = startPin.Kind
          ∨ alreadyLinked links startPin endPin = true then
        { s with
          CurrentStage := CreateStage.None
          NextStage := CreateStage.None
          ItemType := CreateItemType.NoItem
          LinkEnd := none }
      else
        { s with
          CurrentStage := CreateStage.Create
          NextStage := CreateStage.Create
          ItemType := CreateItemType.Link
          LinkEnd := some endPin }

/-- Modelled from the spec: `CreateItemAction::QueryLink` (body not under
`src/`).  While a link proposal is staged at `Create`, the query yields the
candidate start/end pin ids with result `True` (or `False` once rejected);
otherwise it yields `Indeterminate` and no ids. -/
def CreateItemAction.QueryLink (s : CreateItemAction) :
    CreateResult × Option Int × Option Int :=
  if s.ItemType = CreateItemType.Link ∧ s.CurrentStage = CreateStage.Create then
    match s.LinkStart, s.LinkEnd with
    | some a, some b =>
        (if s.UserAction = CreateUserAction.UserReject then CreateResult.False
         else CreateResult.True, some a.ID, some b.ID)
    | _, _ => (CreateResult.Indeterminate, none, none)
  else (CreateResult.Indeterminate, none, none)

/-- C3: a creation gesture that starts by dragging from pin `a` and drops on a
pin `b` of the same node never reaches stage `Create` — neither right after the
drag start nor after the drop — and no link proposal is offered to the
consumer (`QueryLink` yields `Indeterminate`). -/
theorem createItem_rejects_same_node_drop
    (s₀ : CreateItemAction) (links : List Link) (a b : Pin)
    (hsame : b.Node = a.Node) :
    (s₀.DragStart a).CurrentStage ≠ CreateStage.Create
    ∧ ((s₀.DragStart a).DropPin links b).CurrentStage ≠ CreateStage.Create
    ∧ ((s₀.DragStart a).DropPin links b).QueryLink
        = (CreateResult.Indeterminate, none, none) := by
  have hcond : b.ID = a.ID ∨ b.Node = a.Node ∨ b.Kind = a.Kind
      ∨ alreadyLinked links a b = true := Or.inr (Or.inl hsame)
  refine ⟨by simp [CreateItemAction.DragStart], ?_, ?_⟩ <;>
    · simp [CreateItemAction.DragStart, CreateItemAction.DropPin, hcond,
        CreateItemAction.QueryLink]

/-- Concrete instantiation of `createItem_rejects_same_node_drop`: input and
output pins 1 and 2 both owned by node 10. -/
theorem createItem_rejects_same_node_drop_witness :
    ({ Pin.create 2 PinKind.Input with Node := some 10 } : Pin).Node
      = ({ Pin.create 1 PinKind.Output with Node := some 10 } : Pin).Node
    ∧ ((CreateItemAction.initial.DragStart
          { Pin.create 1 PinKind.Output with Node := some 10 }).DropPin []
          { Pin.create 2 PinKind.Input with Node := some 10 }).CurrentStage
        ≠ CreateStage.Create :=
  ⟨rfl,
    (createItem_rejects_same_node_drop CreateItemAction.initial []
      { Pin.create 1 PinKind.Output with Node := some 10 }
      { Pin.create 2 PinKind.Input with Node := some 10 } rfl).2.1⟩

/-- C4: dragging from pin `a` of one node and dropping on a kind-compatible
pin `b` of a different node (not the same pin and not already linked
identically) moves the action to stage `Create` with type `Link`, and
`QueryLink` returns `True` with the candidate ids `(a, b)`; dropping back on
the originating pin `a` instead produces no proposal (`Indeterminate`). -/
theorem createItem_link_proposal_query
    (s₀ : CreateItemAction) (links : List Link) (a b : Pin)
    (hid : b.ID ≠ a.ID) (hnode : b.Node ≠ a.Node) (hkind : b.Kind ≠ a.Kind)
    (hdup : alreadyLinked links a b = false) :
    ((s₀.DragStart a).DropPin links b).CurrentStage = CreateStage.Create
    ∧ ((s₀.DragStart a).DropPin links b).ItemType = CreateItemType.Link
    ∧ ((s₀.DragStart a).DropPin links b).QueryLink
        = (CreateResult.True, some a.ID, some b.ID)
    ∧ ((s₀.DragStart a).DropPin links a).QueryLink
        = (CreateResult.Indeterminate, none, none) := by
  have hcond : ¬(b.ID = a.ID ∨ b.Node = a.Node ∨ b.Kind = a.Kind
      ∨ alreadyLinked links a b = true) := by
    simp [hid, hnode, hkind, hdup]
  have hself : a.ID = a.ID ∨ a.Node = a.Node ∨ a.Kind = a.Kind
      ∨ alreadyLinked links a a = true := Or.inl rfl
  refine ⟨?_, ?_, ?_, ?_⟩ <;>
    · simp [CreateItemAction.DragStart, CreateItemAction.DropPin, hcond, hself,
        CreateItemAction.QueryLink]

/-- Concrete instantiation of `createItem_link_proposal_query`: output pin 1 of
node 10 dropped on input pin 2 of node 20 with no pre-existing links. -/
theorem createItem_link_proposal_query_witness :
    (({ Pin.create 2 PinKind.Input with Node := some 20 } : Pin).ID
        ≠ ({ Pin.create 1 PinKind.Output with Node := some 10 } : Pin).ID
      ∧ ({ Pin.create 2 PinKind.Input with Node := some 20 } : Pin).Node
        ≠ ({ Pin.create 1 PinKind.Output with Node := some 10 } : Pin).Node
      ∧ ({ Pin.create 2 PinKind.Input with Node := some 20 } : Pin).Kind
        ≠ ({ Pin.create 1 PinKind.Output with Node := some 10 } : Pin).Kind
      ∧ alreadyLinked [] { Pin.create 1 PinKind.Output with Node := some 10 }
          { Pin.create 2 PinKind.Input with Node := some 20 } = false)
    ∧ ((CreateItemAction.initial.DragStart
          { Pin.create 1 PinKind.Output with Node := some 10 }).DropPin []
          { Pin.create 2 PinKind.Input with Node := some 20 }).QueryLink
        = (CreateResult.True, some 1, some 2) :=
  ⟨⟨by decide, by decide, by decide, by decide⟩,
    (createItem_link_proposal_query CreateItemAction.initial []
      { Pin.create 1 PinKind.Output with Node := some 10 }
      { Pin.create 2 PinKind.Input with Node := some 20 }
      (by decide) (by decide) (by decide) (by decide)).2.2.1⟩

/-- Kind of candidate currently iterated (`enum DeleteItemsAction::IteratorType`,
header line 417). -/
inductive DeleteIteratorType
  | Unknown
  | Link
  | Node
deriving DecidableEq, Repr

/-- Consumer's answer for the current deletion candidate
(`enum DeleteItemsAction::UserAction`, header line 418). -/
inductive DeleteUserAction
  | Undetermined
  | Accepted
  | Rejected
deriving DecidableEq, Repr

/-- State of `struct DeleteItemsAction` (header lines 391-427). -/
structure DeleteItemsAction where
  IsActive : Bool
  InInteraction : Bool
  CurrentItemType : DeleteIteratorType
  UserAction : DeleteUserAction
  CandidateObjects : List Object
  CandidateItemIndex : Nat
deriving DecidableEq, Repr

/-- Whether the object is a `Link` (the `AsLink` capability succeeds). -/
def Object.isLinkObj : Object → Bool
  | .link _ => true
  | _ => false

/-- Whether the object is a `Node` (the `AsNode` capability succeeds). -/
def Object.isNodeObj : Object → Bool
  | .node _ => true
  | _ => false

/-- Owning node of the pin with the given id, looked up in the pin store. -/
def pinOwnerNode (pins : List Pin) (pinId : Option Int) : Option Int :=
  match pinId with
  | none => none
  | some i =>
      match pins.find? (fun p => decide (p.ID = i)) with
      | some p => p.Node
      | none => none

/-- Modelled from the spec: `Context::FindLinksForNode` (body not under
`src/`) — the links incident to the given node; a link touches the node when
either endpoint pin is owned by it. -/
def FindLinksForNode (pins : List Pin) (links : List Link) (nodeId : Int) :
    List Link :=
  links.filter (fun l => decide (pinOwnerNode pins l.StartPin = some nodeId
    ∨ pinOwnerNode pins l.EndPin = some nodeId))

/-- Modelled from the spec: `DeleteItemsAction::Begin` (body not under
`src/`).  Arming the action snapshots the ordered candidate list: every
currently-selected link first, then every currently-selected node, with the
cursor at the front. -/
def DeleteItemsAction.BeginWith (s : DeleteItemsAction) (selected : List Object) :
    DeleteItemsAction :=
  { s with
    IsActive := true
    InInteraction := true
    CurrentItemType := DeleteIteratorType.Unknown
    UserAction := DeleteUserAction.Undetermined
    CandidateObjects := selected.filter Object.isLinkObj
      ++ selected.filter Object.isNodeObj
    CandidateItemIndex := 0 }

/-- Modelled from the spec: `DeleteItemsAction::AcceptItem` (body not under
`src/`).  The consumer accepts the candidate at the cursor; when it is a node,
the links incident to that node are appended as further candidates
(`Context::FindLinksForNode` with `add = true`) before iteration proceeds. -/
def DeleteItemsAction.AcceptItem (s : DeleteItemsAction) (pins : List Pin)
    (links : List Link) : DeleteItemsAction :=
  match s.CandidateObjects.get? s.CandidateItemIndex with
  | some (Object.node n) =>
      { s with
        UserAction := DeleteUserAction.Accepted
        CandidateObjects := s.CandidateObjects
          ++ (FindLinksForNode pins links n.ID).map Object.link
        CandidateItemIndex := s.CandidateItemIndex + 1 }
  | some _ =>
      { s with
        UserAction := DeleteUserAction.Accepted
        CandidateItemIndex := s.CandidateItemIndex + 1 }
  | none => s

/-- An object cannot be both a link and a node. -/
theorem isLinkObj_not_isNodeObj (o : Object) (h : o.isLinkObj = true) :
    o.isNodeObj = false := by
  cases o <;> simp_all [Object.isLinkObj, Object.isNodeObj]

/-- C5: arming `DeleteItemsAction` over a duplicate-free selection places each
selected link exactly once in the candidate list and every link candidate
before every node candidate; and when the consumer accepts a node candidate,
all links incident to that node become candidates as well. -/
theorem deleteItems_candidates_links_first
    (selected : List Object) (hnd : selected.Nodup)
    (s₀ s : DeleteItemsAction) (pins : List Pin) (links : List Link) (n : Node)
    (hcur : s.CandidateObjects.get? s.CandidateItemIndex = some (Object.node n)) :
    (∀ l ∈ selected, Object.isLinkObj l = true →
        (s₀.BeginWith selected).CandidateObjects.count l = 1)
    ∧ (∀ i j (hi : i < (s₀.BeginWith selected).CandidateObjects.length)
        (hj : j < (s₀.BeginWith selected).CandidateObjects.length),
        Object.isLinkObj ((s₀.BeginWith selected).CandidateObjects.get ⟨i, hi⟩) = true →
        Object.isNodeObj ((s₀.BeginWith selected).CandidateObjects.get ⟨j, hj⟩) = true →
        i < j)
    ∧ (∀ l ∈ FindLinksForNode pins links n.ID,
        Object.link l ∈ (s.AcceptItem pins links).CandidateObjects) := by
  refine ⟨?_, ?_, ?_⟩
  · intro l hl hlink
    have hcnt1 : (selected.filter Object.isLinkObj).count l = selected.count l := by
      exact List.count_filter (by simp [hlink])
    have hcnt2 : (selected.filter Object.isNodeObj).count l = 0 := by
      refine List.count_eq_zero.mpr ?_
      intro hmem
      have := (List.mem_filter.mp hmem).2
      rw [isLinkObj_not_isNodeObj l hlink] at this
      exact Bool.false_ne_true this
    have hone : selected.count l = 1 := List.count_eq_one_of_mem hnd hl
    simp [DeleteItemsAction.BeginWith, List.count_append, hcnt1, hcnt2, hone]
  · intro i j hi hj hlink hnode
    set L := selected.filter Object.isLinkObj with hL
    set N := selected.filter Object.isNodeObj with hN
    have hiL : i < L.length := by
      by_contra hge
      push_neg at hge
      have hj2 : i - L.length < N.length := by
        have : i < L.length + N.length := by
          simpa [DeleteItemsAction.BeginWith, ← hL, ← hN] using hi
        omega
      have hget : (s₀.BeginWith selected).CandidateObjects.get ⟨i, hi⟩
          = N.get ⟨i - L.length, hj2⟩ := by
        simp only [DeleteItemsAction.BeginWith, ← hL, ← hN, List.get_eq_getElem]
        exact List.getElem_append_right hge
      have hmem : N.get ⟨i - L.length, hj2⟩ ∈ N := List.get_mem N _ _
      have hnod : Object.isNodeObj (N.get ⟨i - L.length, hj2⟩) = true :=
        (List.mem_filter.mp hmem).2
      rw [hget] at hlink
      rw [isLinkObj_not_isNodeObj _ hlink] at hnod
      exact Bool.false_ne_true hnod
    have hjL : L.length ≤ j := by
      by_contra hlt
      push_neg at hlt
      have hget : (s₀.BeginWith selected).CandidateObjects.get ⟨j, hj⟩
          = L.get ⟨j, hlt⟩ := by
        simp only [DeleteItemsAction.BeginWith, ← hL, ← hN, List.get_eq_getElem]
        exact List.getElem_append_left hlt
      have hmem : L.get ⟨j, hlt⟩ ∈ L := List.get_mem L _ _
      have hlnk : Object.isLinkObj (L.get ⟨j, hlt⟩) = true :=
        (List.mem_filter.mp hmem).2
      rw [hget] at hnode
      rw [isLinkObj_not_isNodeObj _ hlnk] at hnode
      exact Bool.false_ne_true hnode
    omega
  · intro l hl
    simp only [DeleteItemsAction.AcceptItem, hcur]
    exact List.mem_append_right _ (List.mem_map_of_mem Object.link hl)

/-- Concrete instantiation of `deleteItems_candidates_links_first`: selection
holding link 5 and node 1; accepting node 1 at the cursor adds its incident
link 9 (attached through pin 2) to the candidates. -/
theorem deleteItems_candidates_links_first_witness :
    ([Object.link (Link.create 5), Object.node (Node.create 1)] : List Object).Nodup
    ∧ (DeleteItemsAction.mk true true DeleteIteratorType.Node
        DeleteUserAction.Undetermined [Object.node (Node.create 1)] 0).CandidateObjects.get?
        (DeleteItemsAction.mk true true DeleteIteratorType.Node
          DeleteUserAction.Undetermined [Object.node (Node.create 1)] 0).CandidateItemIndex
        = some (Object.node (Node.create 1))
    ∧ Object.link { Link.create 9 with EndPin := some 2 }
        ∈ ((DeleteItemsAction.mk true true DeleteIteratorType.Node
            DeleteUserAction.Undetermined [Object.node (Node.create 1)] 0).AcceptItem
            [{ Pin.create 2 PinKind.Input with Node := some 1 }]
            [{ Link.create 9 with EndPin := some 2 }]).CandidateObjects :=
  ⟨by decide, rfl,
    (deleteItems_candidates_links_first
      [Object.link (Link.create 5), Object.node (Node.create 1)] (by decide)
      (DeleteItemsAction.mk true true DeleteIteratorType.Node
        DeleteUserAction.Undetermined [Object.node (Node.create 1)] 0)
      (DeleteItemsAction.mk true true DeleteIteratorType.Node
        DeleteUserAction.Undetermined [Object.node (Node.create 1)] 0)
      [{ Pin.create 2 PinKind.Input with Node := some 1 }]
      [{ Link.create 9 with EndPin := some 2 }]
      (Node.create 1) rfl).2.2
      { Link.create 9 with EndPin := some 2 } (by decide)⟩

/-- Node layout staging states (`enum class NodeStage`, header lines 28-37). -/
inductive NodeStage
  | Invalid
  | Begin
  | Header
  | Content
  | Input
  | Output
  | End
deriving DecidableEq, Repr

/-- Modelled from the spec: the valid caller-driven staging transitions
`Begin → Header → Content → (Input | Output)* → End` (the checking body of
`Context::SetNodeStage` is not under `src/`).  `Invalid` is the resting state
entered by `BeginNode` and restored after `End`; `Input`/`Output` may each be
entered and exited multiple times, but only while in `Content`. -/
def validNodeStageTransition : NodeStage → NodeStage → Bool
  | NodeStage.Invalid, NodeStage.Begin => true
  | NodeStage.Begin, NodeStage.Header => true
  | NodeStage.Header, NodeStage.Content => true
  | NodeStage.Content, NodeStage.Input => true
  | NodeStage.Input, NodeStage.Content => true
  | NodeStage.Content, NodeStage.Output => true
  | NodeStage.Output, NodeStage.Content => true
  | NodeStage.Content, NodeStage.End => true
  | NodeStage.End, NodeStage.Invalid => true
  | _, _ => false

/-- Fragment of the `Context` state driven by the staging calls: the current
build stage (`Context::NodeBuildStage`, header line 575), the node being
built, the node store with the bounds computed so far, and the diagnostic
log. -/
structure StagingContext where
  NodeBuildStage : NodeStage
  CurrentNode : Option Int
  Nodes : List Node
  LogCount : Nat
deriving DecidableEq, Repr

/-- Modelled from the spec: `Context::SetNodeStage` (body not under `src/`).
A staging operation called in its valid predecessor state performs the
transition and reports success; called out of order it is reported via the
diagnostic log and is a no-op returning false, leaving the stage, the current
node and every previously computed node's bounds untouched. -/
def StagingContext.SetNodeStage (s : StagingContext) (stage : NodeStage) :
    StagingContext × Bool :=
  if validNodeStageTransition s.NodeBuildStage stage then
    ({ s with NodeBuildStage := stage }, true)
  else
    ({ s with LogCount := s.LogCount + 1 }, false)

/-- Modelled from the spec: `Context::EndNode` drives the staging machine to
the `End` stage. -/
def StagingContext.EndNode (s : StagingContext) : StagingContext × Bool :=
  s.SetNodeStage NodeStage.End

/-- C6: every staging operation requested outside its valid predecessor
state — from any current state, e.g. `End` during `Input` or `Input` during
`Header` — is reported (the diagnostic log grows) and is a no-op: the stage,
the current node and every previously computed node's bounds are unchanged;
in particular `EndNode` with no matching `BeginNode` open (resting stage
`Invalid`) is rejected this way. -/
theorem setNodeStage_invalid_end_no_op
    (s : StagingContext) (stage : NodeStage)
    (hbad : validNodeStageTransition s.NodeBuildStage stage = false) :
    ((s.SetNodeStage stage).2 = false
      ∧ (s.SetNodeStage stage).1.NodeBuildStage = s.NodeBuildStage
      ∧ (s.SetNodeStage stage).1.CurrentNode = s.CurrentNode
      ∧ (s.SetNodeStage stage).1.Nodes = s.Nodes
      ∧ (s.SetNodeStage stage).1.LogCount = s.LogCount + 1)
    ∧ (s.NodeBuildStage = NodeStage.Invalid →
        s.EndNode.2 = false ∧ s.EndNode.1.Nodes = s.Nodes
        ∧ s.EndNode.1.LogCount = s.LogCount + 1) := by
  constructor
  · simp [StagingContext.SetNodeStage, hbad]
  · intro hrest
    have hend : validNodeStageTransition s.NodeBuildStage NodeStage.End = false := by
      rw [hrest]
      rfl
    simp [StagingContext.EndNode, StagingContext.SetNodeStage, hend]

/-- Concrete instantiation of `setNodeStage_invalid_end_no_op`: an `EndNode`
call in the resting state with one node of already computed bounds leaves that
node untouched and returns false. -/
theorem setNodeStage_invalid_end_no_op_witness :
    (validNodeStageTransition
        (StagingContext.mk NodeStage.Invalid none [Node.create 1] 0).NodeBuildStage
        NodeStage.End = false
      ∧ (StagingContext.mk NodeStage.Invalid none [Node.create 1] 0).NodeBuildStage
        = NodeStage.Invalid)
    ∧ ((StagingContext.mk NodeStage.Invalid none [Node.create 1] 0).EndNode.2 = false
      ∧ (StagingContext.mk NodeStage.Invalid none [Node.create 1] 0).EndNode.1.Nodes
        = [Node.create 1]
      ∧ (StagingContext.mk NodeStage.Invalid none [Node.create 1] 0).EndNode.1.LogCount
        = 0 + 1) :=
  ⟨⟨rfl, rfl⟩,
    (setNodeStage_invalid_end_no_op
      (StagingContext.mk NodeStage.Invalid none [Node.create 1] 0)
      NodeStage.End rfl).2 rfl⟩

/-- Fragment of the editor state touched by `DragAction`: the node store, the
current selection (as ids) and the settings dirty flag
(`Settings::Dirty`, header line 121). -/
structure DragEditorState where
  Nodes : List Node
  SelectedIds : List Int
  SettingsDirty : Bool
deriving DecidableEq, Repr

/-- Displacement of a node's bounding-rectangle origin by a canvas-space
delta. -/
def Node.displace (n : Node) (delta : Vec2) : Node :=
  { n with
    Bounds := { n.Bounds with
      location := ⟨n.Bounds.location.x + delta.x, n.Bounds.location.y + delta.y⟩ } }

/-- Modelled from the spec: `DragAction::Process` (body not under `src/`).
While active, the dragged node's bounding rectangle origin is displaced by the
pointer delta in canvas space; if the dragged node is part of the current
selection, all other selected nodes move by the same delta; settings are
marked dirty (`Context::MarkSettingsDirty`) on any movement. -/
def dragProcess (s : DragEditorState) (draggedId : Int) (delta : Vec2) :
    DragEditorState :=
  let moving : Node → Bool := fun n =>
    decide (n.ID = draggedId)
      || (s.SelectedIds.contains draggedId && s.SelectedIds.contains n.ID)
  { s with
    Nodes := s.Nodes.map (fun n => if moving n then n.displace delta else n)
    SettingsDirty := s.SettingsDirty || !decide (delta = Vec2.zero) }

/-- C7: a drag of a node that is not part of a multi-node selection — either
not selected at all, or the sole member of the selection — by a non-zero
delta displaces only that node's bounding-rectangle origin by the delta;
every other node is unchanged, and the settings dirty flag becomes true. -/
theorem dragAction_moves_only_dragged_node
    (s : DragEditorState) (draggedId : Int) (delta : Vec2)
    (hsel : draggedId ∈ s.SelectedIds → ∀ j ∈ s.SelectedIds, j = draggedId)
    (hmove : delta ≠ Vec2.zero) :
    ((dragProcess s draggedId delta).Nodes.length = s.Nodes.length)
    ∧ (∀ i (hi : i < s.Nodes.length)
        (hi2 : i < (dragProcess s draggedId delta).Nodes.length),
        ((s.Nodes.get ⟨i, hi⟩).ID = draggedId →
          (dragProcess s draggedId delta).Nodes.get ⟨i, hi2⟩
            = (s.Nodes.get ⟨i, hi⟩).displace delta)
        ∧ ((s.Nodes.get ⟨i, hi⟩).ID ≠ draggedId →
          (dragProcess s draggedId delta).Nodes.get ⟨i, hi2⟩ = s.Nodes.get ⟨i, hi⟩))
    ∧ (dragProcess s draggedId delta).SettingsDirty = true := by
  refine ⟨by simp [dragProcess], ?_, ?_⟩
  · intro i hi hi2
    simp only [List.get_eq_getElem]
    constructor
    · intro hid
      simp [dragProcess, hid]
    · intro hid
      by_cases hdr : draggedId ∈ s.SelectedIds
      · have hnot : (s.Nodes.get ⟨i, hi⟩).ID ∉ s.SelectedIds := fun hmem =>
          hid (hsel hdr _ hmem)
        simp only [List.get_eq_getElem] at hnot
        simp [dragProcess, hid, hnot]
      · simp [dragProcess, hid, hdr]
  · simp [dragProcess, hmove]

/-- Concrete instantiation of `dragAction_moves_only_dragged_node`: nodes 1
and 2, node 1 dragged by `(3, 4)` while it is the sole selected node — node 2
is unchanged and the dirty flag is set. -/
theorem dragAction_moves_only_dragged_node_witness :
    ((⟨3, 4⟩ : Vec2) ≠ Vec2.zero)
    ∧ (dragProcess (DragEditorState.mk [Node.create 1, Node.create 2] [1] false) 1
        ⟨3, 4⟩).SettingsDirty = true
    ∧ (dragProcess (DragEditorState.mk [Node.create 1, Node.create 2] [1] false) 1
        ⟨3, 4⟩).Nodes.get ⟨1, by decide⟩ = Node.create 2 :=
  ⟨by decide,
    (dragAction_moves_only_dragged_node
      (DragEditorState.mk [Node.create 1, Node.create 2] [1] false) 1 ⟨3, 4⟩
      (by decide) (by decide)).2.2,
    ((dragAction_moves_only_dragged_node
      (DragEditorState.mk [Node.create 1, Node.create 2] [1] false) 1 ⟨3, 4⟩
      (by decide) (by decide)).2.1 1 (by decide) (by decide)).2 (by decide)⟩

end AxEditor
